import Mathlib

/-!
Shallow embedding of CelestePy/celeste_galaxy_conditionals.py over the real
numbers.  Two-by-two matrices and two-vectors are explicit records; numpy
float arithmetic is modelled by exact real arithmetic; the fallible profile
lookup is modelled with Option.
-/

noncomputable section

/-- A 2-vector of reals (a numpy length-2 array). -/
structure V2 where
  x : ℝ
  y : ℝ

/-- A 2-by-2 real matrix in row-major order: first row (a, b), second row (c, d). -/
structure M2 where
  a : ℝ
  b : ℝ
  c : ℝ
  d : ℝ

/-- componentwise vector addition. -/
def V2.add (u v : V2) : V2 := ⟨u.x + v.x, u.y + v.y⟩

/-- componentwise vector subtraction. -/
def V2.sub (u v : V2) : V2 := ⟨u.x - v.x, u.y - v.y⟩

/-- matrix product of two 2-by-2 matrices (numpy dot). -/
def M2.mul (K L : M2) : M2 :=
  ⟨K.a * L.a + K.b * L.c, K.a * L.b + K.b * L.d,
   K.c * L.a + K.d * L.c, K.c * L.b + K.d * L.d⟩

/-- componentwise matrix addition. -/
def M2.add (K L : M2) : M2 := ⟨K.a + L.a, K.b + L.b, K.c + L.c, K.d + L.d⟩

/-- scalar times matrix. -/
def M2.smul (r : ℝ) (K : M2) : M2 := ⟨r * K.a, r * K.b, r * K.c, r * K.d⟩

/-- matrix transpose. -/
def M2.transpose (K : M2) : M2 := ⟨K.a, K.c, K.b, K.d⟩

/-- the 2-by-2 identity matrix. -/
def M2.one : M2 := ⟨1, 0, 0, 1⟩

/-- determinant of a 2-by-2 matrix, as in the source helper det2d:
K[0,0]*K[1,1] - K[1,0]*K[0,1]. -/
def det2d (K : M2) : ℝ := K.a * K.d - K.c * K.b

/-- model of numpy.linalg.inv on a 2-by-2 matrix: the exact matrix inverse,
adjugate divided by the determinant. -/
def linalg_inv (K : M2) : M2 := M2.smul (det2d K)⁻¹ ⟨K.d, -K.b, -K.c, K.a⟩

/-- the fixed pixel-to-degree calibration matrix cd built from the 0.396
arcsec-per-pixel scale (gen_galaxy_transformation, lines 107-108). -/
def cdMat : M2 := ⟨0.396 / 3600, 0, 0, 0.396 / 3600⟩

/-- the squish/rotate/scale matrix G of gen_galaxy_transformation
(lines 96-104): re_deg = max(1/30, sig_s)/3600 times the matrix
[[cos phi, sin phi * rho], [-sin phi, cos phi * rho]]. -/
def Gmat (sig_s rho_s phi_s : ℝ) : M2 :=
  M2.smul (max (1 / 30) sig_s / 3600)
    ⟨Real.cos phi_s, Real.sin phi_s * rho_s, -Real.sin phi_s, Real.cos phi_s * rho_s⟩

/-- the matrix T = inverse(G) * cd of gen_galaxy_transformation (line 111),
taking pixel displacements to unit-effective-radius displacements. -/
def Tmat (sig_s rho_s phi_s : ℝ) : M2 := (linalg_inv (Gmat sig_s rho_s phi_s)).mul cdMat

/-- embedding of gen_galaxy_transformation(sig_s, rho_s, phi_s): the source
computes re_deg, G, cd, T = inv(G) * cd and Tinv = inv(T), and returns Tinv
(line 113). -/
def gen_galaxy_transformation (sig_s rho_s phi_s : ℝ) : M2 :=
  linalg_inv (Tmat sig_s rho_s phi_s)

/-- a galaxy profile from the Profile Mixture Registry: Gaussian-mixture
amplitudes amp and scalar variances var[:,0,0]. -/
structure GalaxyProfile where
  amp : List ℝ
  var : List ℝ

/-- Modelled from the spec: the process-wide Profile Mixture Registry
(CelestePy.mixture_profiles is not part of the embedded source); it holds the
two canonical profiles, exponential and de Vaucouleurs. -/
structure ProfRegistry where
  expProf : GalaxyProfile
  devProf : GalaxyProfile

/-- a FitsImage: band index (u,g,r,i,z as 0..4), calibration scalar, gain
kappa, PSF mixture weights/means/covariances, and the pixel grid.  Observed
counts are supplied separately, one list per image, aligned with pixel_grid. -/
structure FitsImage where
  band : Fin 5
  calib : ℝ
  kappa : ℝ
  weights : List ℝ
  means : List V2
  covars : List M2
  pixel_grid : List V2

/-- quadratic form v^T K v of a 2-by-2 matrix. -/
def qform (K : M2) (v : V2) : ℝ :=
  v.x * (K.a * v.x + K.b * v.y) + v.y * (K.c * v.x + K.d * v.y)

/-- Modelled from the spec: one weighted 2-d Gaussian density evaluation
(gmm_like_2d lives in a Cython module outside the embedded source): the
density of N(mu, S) at point p. -/
def gauss2d (mu : V2) (S : M2) (p : V2) : ℝ :=
  Real.exp (-(qform (linalg_inv S) (V2.sub p mu)) / 2) /
    (2 * Real.pi * Real.sqrt (det2d S))

/-- the PSF mixture components of an image, zipped into triples. -/
def psfComps (img : FitsImage) : List (ℝ × V2 × M2) :=
  img.weights.zip (img.means.zip img.covars)

/-- Modelled from the spec: celeste_fast.gen_galaxy_prof_psf_mixture_params
(a Cython module outside the embedded source): convolve the galaxy profile
with the image PSF mixture; for each pair of a PSF component and a profile
component, weight = psf weight * profile amplitude, mean = source location
plus psf mean, covariance = psf covariance + profile variance * W, where
W = R * R^T. -/
def profPsfMixtureParams (pf : GalaxyProfile) (W : M2) (u : V2) (img : FitsImage) :
    List (ℝ × V2 × M2) :=
  (psfComps img).flatMap (fun kc =>
    (pf.amp.zip pf.var).map (fun jc =>
      (kc.1 * jc.1, V2.add u kc.2.1, M2.add kc.2.2 (M2.smul jc.2 W))))

/-- density image of one profile convolved with the image PSF: the full
mixture density evaluated at every pixel of the pixel grid (the numpy reshape
and transpose at line 147 only change the array layout, which the list-per-
pixel model abstracts). -/
def profPsfImage (pf : GalaxyProfile) (R : M2) (u : V2) (img : FitsImage) : List ℝ :=
  img.pixel_grid.map (fun pt =>
    ((profPsfMixtureParams pf (R.mul R.transpose) u img).map
      (fun comp => comp.1 * gauss2d comp.2.1 comp.2.2 pt)).sum)

/-- embedding of galaxy_prof_dict = dict(zip(['exp', 'dev'], galaxy_profs)). -/
def galaxy_prof_dict (Rg : ProfRegistry) (k : String) : Option GalaxyProfile :=
  if k = "exp" then some Rg.expProf
  else if k = "dev" then some Rg.devProf
  else none

/-- embedding of gen_galaxy_prof_psf_image (lines 121-147): the assert on the
profile key is modelled by Option, none standing for the UnknownProfileType
assertion error. -/
def gen_galaxy_prof_psf_image (Rg : ProfRegistry) (prof_type : String) (R : M2)
    (u : V2) (img : FitsImage) : Option (List ℝ) :=
  (galaxy_prof_dict Rg prof_type).map (fun pf => profPsfImage pf R u img)

/-- the band fluxes bs = dict(zip(BANDS, th[-5:])) of an 11-entry parameter
vector, with the bands u,g,r,i,z indexed 0..4. -/
def fluxOf (th : Fin 11 → ℝ) (b : Fin 5) : ℝ := th ⟨6 + b.val, by omega⟩

/-- the source location u_s = th[4:6]. -/
def locOf (th : Fin 11 → ℝ) : V2 := ⟨th 4, th 5⟩

/-- R_s = gen_galaxy_transformation(sig_s, rho_s, phi_s) from th[0:4]. -/
def shapeR (th : Fin 11 → ℝ) : M2 := gen_galaxy_transformation (th 1) (th 3) (th 2)

/-- the per-image exponential-profile density image f_nms_exp. -/
def f_nms_exp (Rg : ProfRegistry) (th : Fin 11 → ℝ) (img : FitsImage) : List ℝ :=
  profPsfImage Rg.expProf (shapeR th) (locOf th) img

/-- the per-image de Vaucouleurs-profile density image f_nms_dev. -/
def f_nms_dev (Rg : ProfRegistry) (th : Fin 11 → ℝ) (img : FitsImage) : List ℝ :=
  profPsfImage Rg.devProf (shapeR th) (locOf th) img

/-- the combined density f_nms = theta * f_nms_exp + (1 - theta) * f_nms_dev,
pixelwise. -/
def f_nms (Rg : ProfRegistry) (th : Fin 11 → ℝ) (img : FitsImage) : List ℝ :=
  List.zipWith (fun fe fd => th 0 * fe + (1 - th 0) * fd)
    (f_nms_exp Rg th img) (f_nms_dev Rg th img)

/-- one image's contribution to galaxy_source_like: with
lam = (bs[band] / calib) * kappa * f_nms pixelwise, the sum over pixels of
Z * log(lam) - lam. -/
def imageLL (Rg : ProfRegistry) (th : Fin 11 → ℝ) (img : FitsImage) (Z : List ℝ) : ℝ :=
  (List.zipWith (fun z f =>
      z * Real.log (fluxOf th img.band / img.calib * img.kappa * f) -
        fluxOf th img.band / img.calib * img.kappa * f)
    Z (f_nms Rg th img)).sum

/-- embedding of galaxy_source_like(th, Z_s, images): the loop over
enumerate(images) with accumulator ll, starting at 0. -/
def galaxy_source_like (Rg : ProfRegistry) (th : Fin 11 → ℝ) (Z_s : List (List ℝ))
    (images : List FitsImage) : ℝ :=
  (images.zip Z_s).foldl (fun ll p => ll + imageLL Rg th p.1 p.2) 0

/-- one image's contribution to grad_theta_s in galaxy_source_like_grad
(line 62): sum over pixels of (Z / f_nms - bs[band]) * (f_nms_exp - f_nms_dev). -/
def gradThetaTerm (Rg : ProfRegistry) (th : Fin 11 → ℝ) (p : FitsImage × List ℝ) : ℝ :=
  (List.zipWith (fun zf ed => (zf.1 / zf.2 - fluxOf th p.1.band) * (ed.1 - ed.2))
    (p.2.zip (f_nms Rg th p.1))
    ((f_nms_exp Rg th p.1).zip (f_nms_dev Rg th p.1))).sum

/-- one image's contribution to grad_bs[band] in galaxy_source_like_grad
(line 65): (1 / bs[band]) * sum(Z) - sum(f_nms). -/
def gradFluxTerm (Rg : ProfRegistry) (th : Fin 11 → ℝ) (p : FitsImage × List ℝ) : ℝ :=
  1 / fluxOf th p.1.band * p.2.sum - (f_nms Rg th p.1).sum

/-- embedding of galaxy_source_like_grad(th, Z_s, images): output position 0
is the accumulated grad_theta_s; positions 1..5 are the central finite
differences grad_RU over entries 1..5 of th with step 1e-5 (numerical_inds =
[1,2,3,4,5], lines 67-77); positions 6..10 are the accumulated per-band flux
gradients grad_bs, packed in band order (lines 79-84). -/
def galaxy_source_like_grad (Rg : ProfRegistry) (th : Fin 11 → ℝ)
    (Z_s : List (List ℝ)) (images : List FitsImage) : Fin 11 → ℝ :=
  fun j =>
    if j.val = 0 then
      (images.zip Z_s).foldl (fun acc p => acc + gradThetaTerm Rg th p) 0
    else if h : j.val ≤ 5 then
      (galaxy_source_like Rg (fun k => th k + (if k.val = j.val then 1e-5 else 0)) Z_s images -
       galaxy_source_like Rg (fun k => th k - (if k.val = j.val then 1e-5 else 0)) Z_s images) /
        (2 * 1e-5)
    else
      ((images.zip Z_s).foldl
        (fun g p => Function.update g p.1.band (g p.1.band + gradFluxTerm Rg th p))
        (fun _ => (0 : ℝ))) ⟨j.val - 6, by have hj := j.isLt; omega⟩

/-- embedding of gen_galaxy_psf_image(th, u_s, img): the u_s argument is
overwritten by th[4:6] at line 157 before any use, so the body is exactly the
combined density f_nms of the two profile images. -/
def gen_galaxy_psf_image (Rg : ProfRegistry) (th : Fin 11 → ℝ) (u_s : V2)
    (img : FitsImage) : List ℝ :=
  f_nms Rg th img

/-- embedding of constrain_params: sigmoid, exp, pi-scaled sigmoid, sigmoid. -/
def constrain_params (th : Fin 4 → ℝ) : Fin 4 → ℝ :=
  ![1 / (1 + Real.exp (-th 0)),
    Real.exp (th 1),
    Real.pi / (1 + Real.exp (-th 2)),
    1 / (1 + Real.exp (-th 3))]

/-- embedding of unconstrain_params: logit, log, pi-scaled logit, logit. -/
def unconstrain_params (th : Fin 4 → ℝ) : Fin 4 → ℝ :=
  ![Real.log (th 0 / (1 - th 0)),
    Real.log (th 1),
    Real.log (th 2 / (Real.pi - th 2)),
    Real.log (th 3 / (1 - th 3))]

/-- Modelled from the spec: fast_inv_gamma_lnpdf from CelestePy.util.like
(outside the embedded source): the standard inverse-gamma log-density
a0 * log b0 - log Gamma(a0) - (a0 + 1) * log x - b0 / x. -/
def fast_inv_gamma_lnpdf (x a0 b0 : ℝ) : ℝ :=
  a0 * Real.log b0 - Real.log (Real.Gamma a0) - (a0 + 1) * Real.log x - b0 / x

/-- embedding of galaxy_shape_prior_constrained (lines 173-180), valued in
the extended reals so that the Python float -inf is bottom. -/
def galaxy_shape_prior_constrained (theta sig phi rho : ℝ) : EReal :=
  if theta ≤ 0 ∨ 1 ≤ theta ∨ sig ≤ 0 ∨ phi ≤ 0 ∨ Real.pi ≤ phi ∨ rho ≤ 0 ∨ 1 ≤ rho
  then (⊥ : EReal)
  else ((fast_inv_gamma_lnpdf (sig * sig) 1 1 : ℝ) : EReal)

/-! Helper lemmas about 2-by-2 matrices. -/

theorem mul_linalg_inv (K : M2) (h : det2d K ≠ 0) : K.mul (linalg_inv K) = M2.one := by
  simp only [M2.mul, linalg_inv, M2.smul, M2.one, M2.mk.injEq, det2d] at *
  refine ⟨?_, ?_, ?_, ?_⟩ <;> field_simp <;> ring

theorem linalg_inv_mul (K : M2) (h : det2d K ≠ 0) : (linalg_inv K).mul K = M2.one := by
  simp only [M2.mul, linalg_inv, M2.smul, M2.one, M2.mk.injEq, det2d] at *
  refine ⟨?_, ?_, ?_, ?_⟩ <;> field_simp <;> ring

theorem det2d_mul (K L : M2) : det2d (K.mul L) = det2d K * det2d L := by
  simp only [det2d, M2.mul]; ring

theorem det2d_linalg_inv (K : M2) : det2d (linalg_inv K) = (det2d K)⁻¹ := by
  rcases eq_or_ne (det2d K) 0 with h | h
  · rw [h, linalg_inv, h]
    simp [M2.smul, det2d]
  · have h2 : det2d (linalg_inv K) * det2d K = 1 := by
      have hh : (det2d K)⁻¹ * det2d K = 1 := inv_mul_cancel₀ h
      simp only [linalg_inv, M2.smul, det2d] at hh ⊢
      linear_combination ((K.a * K.d - K.c * K.b)⁻¹ * (K.a * K.d - K.c * K.b) + 1) * hh
    exact eq_inv_of_mul_eq_one_left h2

theorem det2d_Gmat (sig rho phi : ℝ) :
    det2d (Gmat sig rho phi) = (max (1 / 30) sig / 3600) ^ 2 * rho := by
  simp only [Gmat, det2d, M2.smul]
  linear_combination ((max (1 / 30) sig / 3600) ^ 2 * rho) * (Real.sin_sq_add_cos_sq phi)

theorem det2d_Gmat_ne_zero (sig rho phi : ℝ) (hrho : rho ≠ 0) :
    det2d (Gmat sig rho phi) ≠ 0 := by
  rw [det2d_Gmat]
  have hre : (0 : ℝ) < max (1 / 30) sig / 3600 := by
    have h1 : (0 : ℝ) < 1 / 30 := by norm_num
    have h2 : (1 : ℝ) / 30 ≤ max (1 / 30) sig := le_max_left _ _
    positivity
  exact mul_ne_zero (pow_ne_zero _ (ne_of_gt hre)) hrho

theorem det2d_Tmat_ne_zero (sig rho phi : ℝ) (hrho : rho ≠ 0) :
    det2d (Tmat sig rho phi) ≠ 0 := by
  rw [Tmat, det2d_mul, det2d_linalg_inv]
  refine mul_ne_zero (inv_ne_zero (det2d_Gmat_ne_zero sig rho phi hrho)) ?_
  simp only [cdMat, det2d]
  norm_num

/-- C1 (amended): for sigma > 0, rho in (0,1), phi in (0,pi), the Geometric
Transform computes T = inverse(G) * cd, with G built from
re_deg = max(1/30, sigma)/3600, cos(phi), sin(phi), rho and cd the fixed
0.396-arcsec-per-pixel calibration matrix, and returns only inverse(T): the
returned matrix is a two-sided inverse of T. -/
theorem C1_gen_galaxy_transformation_returns_Tinv (sig rho phi : ℝ)
    (hsig : 0 < sig) (hr0 : 0 < rho) (hr1 : rho < 1)
    (hp0 : 0 < phi) (hp1 : phi < Real.pi) :
    gen_galaxy_transformation sig rho phi = linalg_inv (Tmat sig rho phi) ∧
    (Tmat sig rho phi).mul (gen_galaxy_transformation sig rho phi) = M2.one ∧
    (gen_galaxy_transformation sig rho phi).mul (Tmat sig rho phi) = M2.one := by
  have hdet := det2d_Tmat_ne_zero sig rho phi (ne_of_gt hr0)
  exact ⟨rfl, mul_linalg_inv _ hdet, linalg_inv_mul _ hdet⟩

/-- C1 counterexample: at sigma = 1, rho = 1/2, phi = pi/2 the value returned
by gen_galaxy_transformation is not T = inverse(G) * cd, so the function does
not return T (it returns only the inverse of T). -/
theorem C1_gen_galaxy_transformation_not_T :
    gen_galaxy_transformation 1 (1 / 2) (Real.pi / 2) ≠
      Tmat 1 (1 / 2) (Real.pi / 2) := by
  intro hEq
  have hb := congrArg M2.b hEq
  have hmax : max ((1 : ℝ) / 30) 1 = 1 := max_eq_right (by norm_num)
  simp only [gen_galaxy_transformation, Tmat, Gmat, cdMat, linalg_inv, M2.smul, M2.mul,
    det2d, Real.cos_pi_div_two, Real.sin_pi_div_two, hmax] at hb
  norm_num at hb

/-- C1 witness: the amended theorem applied at sigma = 1, rho = 1/2,
phi = pi/2. -/
theorem C1_gen_galaxy_transformation_witness :
    (0 : ℝ) < 1 ∧ (0 : ℝ) < 1 / 2 ∧ (1 : ℝ) / 2 < 1 ∧ (0 : ℝ) < Real.pi / 2 ∧
      Real.pi / 2 < Real.pi ∧
    ((Tmat 1 (1 / 2) (Real.pi / 2)).mul
        (gen_galaxy_transformation 1 (1 / 2) (Real.pi / 2)) = M2.one) := by
  have h1 : (0 : ℝ) < Real.pi / 2 := by positivity
  have h2 : Real.pi / 2 < Real.pi := by linarith [Real.pi_pos]
  exact ⟨by norm_num, by norm_num, by norm_num, h1, h2,
    (C1_gen_galaxy_transformation_returns_Tinv 1 (1 / 2) (Real.pi / 2)
      (by norm_num) (by norm_num) (by norm_num) h1 h2).2.1⟩

/-! Helper lemmas about the sigmoid and logit reparameterization. -/

theorem one_add_exp_pos (t : ℝ) : (0 : ℝ) < 1 + Real.exp t := by
  have := Real.exp_pos t
  linarith

theorem sigmoid_logit (x : ℝ) (h0 : 0 < x) (h1 : x < 1) :
    1 / (1 + Real.exp (-Real.log (x / (1 - x)))) = x := by
  have hx1 : (0 : ℝ) < 1 - x := by linarith
  rw [Real.exp_neg, Real.exp_log (by positivity)]
  rw [div_eq_iff (by positivity)]
  field_simp

theorem pi_sigmoid_logit (x : ℝ) (h0 : 0 < x) (h1 : x < Real.pi) :
    Real.pi / (1 + Real.exp (-Real.log (x / (Real.pi - x)))) = x := by
  have hx1 : (0 : ℝ) < Real.pi - x := by linarith
  rw [Real.exp_neg, Real.exp_log (by positivity)]
  rw [div_eq_iff (by positivity)]
  field_simp

theorem logit_sigmoid (y : ℝ) :
    Real.log (1 / (1 + Real.exp (-y)) / (1 - 1 / (1 + Real.exp (-y)))) = y := by
  have hp := one_add_exp_pos (-y)
  have he := Real.exp_pos (-y)
  have key : 1 / (1 + Real.exp (-y)) / (1 - 1 / (1 + Real.exp (-y))) = Real.exp y := by
    rw [Real.exp_neg] at *
    have hne : Real.exp y ≠ 0 := ne_of_gt (Real.exp_pos y)
    field_simp
  rw [key, Real.log_exp]

theorem pi_logit_sigmoid (y : ℝ) :
    Real.log (Real.pi / (1 + Real.exp (-y)) /
      (Real.pi - Real.pi / (1 + Real.exp (-y)))) = y := by
  have hp := one_add_exp_pos (-y)
  have he := Real.exp_pos (-y)
  have key : Real.pi / (1 + Real.exp (-y)) /
      (Real.pi - Real.pi / (1 + Real.exp (-y))) = Real.exp y := by
    rw [Real.exp_neg] at *
    have hne : Real.exp y ≠ 0 := ne_of_gt (Real.exp_pos y)
    have hpi : Real.pi ≠ 0 := Real.pi_ne_zero
    field_simp
    have hd : Real.pi * (Real.exp y + 1) - Real.pi * Real.exp y = Real.pi := by ring
    rw [hd, mul_comm, mul_div_assoc, div_self hpi, mul_one]
  rw [key, Real.log_exp]

theorem sigmoid_pos (t : ℝ) : (0 : ℝ) < 1 / (1 + Real.exp (-t)) := by positivity

theorem sigmoid_lt_one (t : ℝ) : 1 / (1 + Real.exp (-t)) < 1 := by
  rw [div_lt_one (one_add_exp_pos _)]
  linarith [Real.exp_pos (-t)]

/-- C6: constrain_params and unconstrain_params are mutually inverse: for a
constrained vector with theta in (0,1), sigma > 0, phi in (0,pi), rho in
(0,1), constrain after unconstrain is the identity, and unconstrain after
constrain is the identity on every unconstrained real 4-vector. -/
theorem C6_constrain_unconstrain_roundtrip :
    (∀ x : Fin 4 → ℝ, 0 < x 0 → x 0 < 1 → 0 < x 1 → 0 < x 2 → x 2 < Real.pi →
      0 < x 3 → x 3 < 1 → constrain_params (unconstrain_params x) = x) ∧
    (∀ y : Fin 4 → ℝ, unconstrain_params (constrain_params y) = y) := by
  constructor
  · intro x h00 h01 h10 h20 h21 h30 h31
    funext i
    fin_cases i <;>
      simp only [constrain_params, unconstrain_params, Matrix.cons_val_zero,
        Matrix.cons_val_one, Matrix.head_cons, Matrix.cons_val_two, Matrix.tail_cons,
        Matrix.cons_val_three]
    · exact sigmoid_logit (x 0) h00 h01
    · exact Real.exp_log h10
    · exact pi_sigmoid_logit (x 2) h20 h21
    · exact sigmoid_logit (x 3) h30 h31
  · intro y
    funext i
    fin_cases i <;>
      simp only [constrain_params, unconstrain_params, Matrix.cons_val_zero,
        Matrix.cons_val_one, Matrix.head_cons, Matrix.cons_val_two, Matrix.tail_cons,
        Matrix.cons_val_three]
    · exact logit_sigmoid (y 0)
    · exact Real.log_exp (y 1)
    · exact pi_logit_sigmoid (y 2)
    · exact logit_sigmoid (y 3)

/-- C6 witness: the round trip at the constrained vector (1/2, 1, 1, 1/2) and
the unconstrained vector (0, 0, 0, 0). -/
theorem C6_constrain_unconstrain_witness :
    ((0 : ℝ) < 1 / 2 ∧ (1 : ℝ) / 2 < 1 ∧ (0 : ℝ) < 1 ∧ (0 : ℝ) < 1 ∧
      (1 : ℝ) < Real.pi ∧ (0 : ℝ) < 1 / 2 ∧ (1 : ℝ) / 2 < 1) ∧
    constrain_params (unconstrain_params ![1 / 2, 1, 1, 1 / 2]) = ![1 / 2, 1, 1, 1 / 2] ∧
    unconstrain_params (constrain_params ![0, 0, 0, 0]) = ![0, 0, 0, 0] := by
  have hpi : (1 : ℝ) < Real.pi := by linarith [Real.pi_gt_three]
  refine ⟨⟨by norm_num, by norm_num, by norm_num, by norm_num, hpi, by norm_num,
    by norm_num⟩, ?_, C6_constrain_unconstrain_roundtrip.2 ![0, 0, 0, 0]⟩
  refine C6_constrain_unconstrain_roundtrip.1 ![1 / 2, 1, 1, 1 / 2] ?_ ?_ ?_ ?_ ?_ ?_ ?_ <;>
    simp only [Matrix.cons_val_zero, Matrix.cons_val_one, Matrix.head_cons,
      Matrix.cons_val_two, Matrix.tail_cons, Matrix.cons_val_three]
  · norm_num
  · norm_num
  · norm_num
  · norm_num
  · exact hpi
  · norm_num
  · norm_num

/-- C8: the constrained shape prior returns bottom (minus infinity) exactly
when (theta, sigma, phi, rho) lies outside the open domains theta in (0,1),
sigma in (0, infinity), phi in (0, pi), rho in (0,1), and inside the domains
it returns the inverse-gamma log-density evaluated at sigma squared. -/
theorem C8_galaxy_shape_prior_constrained_spec (theta sig phi rho : ℝ) :
    (galaxy_shape_prior_constrained theta sig phi rho = ⊥ ↔
      ¬(0 < theta ∧ theta < 1 ∧ 0 < sig ∧ 0 < phi ∧ phi < Real.pi ∧
        0 < rho ∧ rho < 1)) ∧
    ((0 < theta ∧ theta < 1 ∧ 0 < sig ∧ 0 < phi ∧ phi < Real.pi ∧
        0 < rho ∧ rho < 1) →
      galaxy_shape_prior_constrained theta sig phi rho =
        ((fast_inv_gamma_lnpdf (sig * sig) 1 1 : ℝ) : EReal)) := by
  rw [galaxy_shape_prior_constrained]
  by_cases h : theta ≤ 0 ∨ 1 ≤ theta ∨ sig ≤ 0 ∨ phi ≤ 0 ∨ Real.pi ≤ phi ∨
      rho ≤ 0 ∨ 1 ≤ rho
  · rw [if_pos h]
    have hnd : ¬(0 < theta ∧ theta < 1 ∧ 0 < sig ∧ 0 < phi ∧ phi < Real.pi ∧
        0 < rho ∧ rho < 1) := by
      intro hd
      rcases h with h | h | h | h | h | h | h
      · linarith [hd.1]
      · linarith [hd.2.1]
      · linarith [hd.2.2.1]
      · linarith [hd.2.2.2.1]
      · linarith [hd.2.2.2.2.1]
      · linarith [hd.2.2.2.2.2.1]
      · linarith [hd.2.2.2.2.2.2]
    exact ⟨⟨fun _ => hnd, fun _ => rfl⟩, fun hd => absurd hd hnd⟩
  · rw [if_neg h]
    push_neg at h
    obtain ⟨h1, h2, h3, h4, h5, h6, h7⟩ := h
    refine ⟨⟨fun hb => absurd hb (EReal.coe_ne_bot _), fun hnd => ?_⟩, fun _ => rfl⟩
    exact absurd ⟨h1, h2, h3, h4, h5, h6, h7⟩ hnd

/-- C8 witness: at the in-domain point (1/2, 1, 1, 1/2) the prior equals the
inverse-gamma log-density coerced into the extended reals. -/
theorem C8_galaxy_shape_prior_constrained_witness :
    ((0 : ℝ) < 1 / 2 ∧ (1 : ℝ) / 2 < 1 ∧ (0 : ℝ) < 1 ∧ (0 : ℝ) < 1 ∧
      (1 : ℝ) < Real.pi ∧ (0 : ℝ) < 1 / 2 ∧ (1 : ℝ) / 2 < 1) ∧
    galaxy_shape_prior_constrained (1 / 2) 1 1 (1 / 2) =
      ((fast_inv_gamma_lnpdf (1 * 1) 1 1 : ℝ) : EReal) := by
  have hpi : (1 : ℝ) < Real.pi := by linarith [Real.pi_gt_three]
  have hd : (0 : ℝ) < 1 / 2 ∧ (1 : ℝ) / 2 < 1 ∧ (0 : ℝ) < 1 ∧ (0 : ℝ) < 1 ∧
      (1 : ℝ) < Real.pi ∧ (0 : ℝ) < 1 / 2 ∧ (1 : ℝ) / 2 < 1 :=
    ⟨by norm_num, by norm_num, by norm_num, by norm_num, hpi, by norm_num, by norm_num⟩
  exact ⟨hd, (C8_galaxy_shape_prior_constrained_spec (1 / 2) 1 1 (1 / 2)).2 hd⟩

/-- C10: constrain_params always lands strictly inside the open constrained
domains, and consequently the constrained shape prior is never bottom on its
output. -/
theorem C10_constrain_params_in_domain (y : Fin 4 → ℝ) :
    0 < constrain_params y 0 ∧ constrain_params y 0 < 1 ∧
    0 < constrain_params y 1 ∧
    0 < constrain_params y 2 ∧ constrain_params y 2 < Real.pi ∧
    0 < constrain_params y 3 ∧ constrain_params y 3 < 1 ∧
    galaxy_shape_prior_constrained (constrain_params y 0) (constrain_params y 1)
      (constrain_params y 2) (constrain_params y 3) ≠ ⊥ := by
  have e0 : constrain_params y 0 = 1 / (1 + Real.exp (-y 0)) := by
    simp [constrain_params]
  have e1 : constrain_params y 1 = Real.exp (y 1) := by
    simp [constrain_params]
  have e2 : constrain_params y 2 = Real.pi / (1 + Real.exp (-y 2)) := by
    simp [constrain_params]
  have e3 : constrain_params y 3 = 1 / (1 + Real.exp (-y 3)) := by
    simp [constrain_params]
  rw [e0, e1, e2, e3]
  have h0a := sigmoid_pos (y 0)
  have h0b := sigmoid_lt_one (y 0)
  have h1a := Real.exp_pos (y 1)
  have h2a : (0 : ℝ) < Real.pi / (1 + Real.exp (-y 2)) := by positivity
  have h2b : Real.pi / (1 + Real.exp (-y 2)) < Real.pi :=
    div_lt_self Real.pi_pos (by linarith [Real.exp_pos (-y 2)])
  have h3a := sigmoid_pos (y 3)
  have h3b := sigmoid_lt_one (y 3)
  refine ⟨h0a, h0b, h1a, h2a, h2b, h3a, h3b, ?_⟩
  have hcond : ¬(1 / (1 + Real.exp (-y 0)) ≤ 0 ∨ 1 ≤ 1 / (1 + Real.exp (-y 0)) ∨
      Real.exp (y 1) ≤ 0 ∨ Real.pi / (1 + Real.exp (-y 2)) ≤ 0 ∨
      Real.pi ≤ Real.pi / (1 + Real.exp (-y 2)) ∨
      1 / (1 + Real.exp (-y 3)) ≤ 0 ∨ 1 ≤ 1 / (1 + Real.exp (-y 3))) := by
    push_neg
    exact ⟨h0a, h0b, h1a, h2a, h2b, h3a, h3b⟩
  rw [galaxy_shape_prior_constrained, if_neg hcond]
  exact EReal.coe_ne_bot _

/-! Helper lemmas about loop accumulators. -/

theorem foldl_add_eq_sum {α : Type} (g : α → ℝ) (l : List α) (a : ℝ) :
    l.foldl (fun acc p => acc + g p) a = a + (l.map g).sum := by
  induction l generalizing a with
  | nil => simp
  | cons x xs ih =>
    rw [List.foldl_cons, ih, List.map_cons, List.sum_cons]
    ring

theorem foldl_update_eq_filter_sum {α : Type} (key : α → Fin 5) (t : α → ℝ)
    (l : List α) (g : Fin 5 → ℝ) (b : Fin 5) :
    (l.foldl (fun g p => Function.update g (key p) (g (key p) + t p)) g) b =
      g b + ((l.filter (fun p => key p = b)).map t).sum := by
  induction l generalizing g with
  | nil => simp
  | cons x xs ih =>
    rw [List.foldl_cons, ih]
    by_cases hxb : key x = b
    · rw [List.filter_cons_of_pos (by simpa using hxb), List.map_cons, List.sum_cons]
      subst hxb
      rw [Function.update_same]
      ring
    · rw [List.filter_cons_of_neg (by simpa using hxb)]
      rw [Function.update_noteq (Ne.symm hxb)]

/-- C2: the Likelihood Evaluator returns the sum over images of
sum(Z * log(lam) - lam) over pixels, with lam = (flux[b] / calib) * kappa * f
and f = theta * f_exp + (1 - theta) * f_dev the combined per-pixel density. -/
theorem C2_galaxy_source_like_spec (Rg : ProfRegistry) (th : Fin 11 → ℝ)
    (Z_s : List (List ℝ)) (images : List FitsImage) :
    galaxy_source_like Rg th Z_s images =
      ((images.zip Z_s).map (fun p =>
        (List.zipWith (fun z f =>
            z * Real.log (fluxOf th p.1.band / p.1.calib * p.1.kappa * f) -
              fluxOf th p.1.band / p.1.calib * p.1.kappa * f)
          p.2
          (List.zipWith (fun fe fd => th 0 * fe + (1 - th 0) * fd)
            (f_nms_exp Rg th p.1) (f_nms_dev Rg th p.1))).sum)).sum := by
  unfold galaxy_source_like
  rw [foldl_add_eq_sum (fun p => imageLL Rg th p.1 p.2) (images.zip Z_s) 0, zero_add]
  rfl

/-- C3: each of the output positions 1..5 (sigma, phi, rho, loc x, loc y) of
the Gradient Evaluator is the symmetric finite difference of the Likelihood
Evaluator with step 1e-5 applied at that entry of the flat parameter vector. -/
theorem C3_grad_numerical_spec (Rg : ProfRegistry) (th : Fin 11 → ℝ)
    (Z_s : List (List ℝ)) (images : List FitsImage) (i : Fin 5) :
    galaxy_source_like_grad Rg th Z_s images ⟨i.val + 1, by omega⟩ =
      (galaxy_source_like Rg
          (Function.update th ⟨i.val + 1, by omega⟩ (th ⟨i.val + 1, by omega⟩ + 1e-5))
          Z_s images -
       galaxy_source_like Rg
          (Function.update th ⟨i.val + 1, by omega⟩ (th ⟨i.val + 1, by omega⟩ - 1e-5))
          Z_s images) / (2 * 1e-5) := by
  unfold galaxy_source_like_grad
  simp only [Fin.val_mk]
  rw [if_neg (by omega), dif_pos (by have := i.isLt; omega)]
  have hplus : (fun k : Fin 11 => th k + (if k.val = i.val + 1 then (1e-5 : ℝ) else 0)) =
      Function.update th ⟨i.val + 1, by omega⟩ (th ⟨i.val + 1, by omega⟩ + 1e-5) := by
    funext k
    rw [Function.update_apply]
    by_cases hk : k = (⟨i.val + 1, by omega⟩ : Fin 11)
    · rw [if_pos hk, if_pos (by rw [hk]), hk]
    · rw [if_neg hk, if_neg (by intro hv; exact hk (Fin.ext hv)), add_zero]
  have hminus : (fun k : Fin 11 => th k - (if k.val = i.val + 1 then (1e-5 : ℝ) else 0)) =
      Function.update th ⟨i.val + 1, by omega⟩ (th ⟨i.val + 1, by omega⟩ - 1e-5) := by
    funext k
    rw [Function.update_apply]
    by_cases hk : k = (⟨i.val + 1, by omega⟩ : Fin 11)
    · rw [if_pos hk, if_pos (by rw [hk]), hk]
    · rw [if_neg hk, if_neg (by intro hv; exact hk (Fin.ext hv)), sub_zero]
  rw [hplus, hminus]

/-- C4: the theta component (output position 0) of the Gradient Evaluator is
the sum over images of sum((Z / f - flux[b]) * (f_exp - f_dev)) over pixels. -/
theorem C4_grad_theta_spec (Rg : ProfRegistry) (th : Fin 11 → ℝ)
    (Z_s : List (List ℝ)) (images : List FitsImage) :
    galaxy_source_like_grad Rg th Z_s images 0 =
      ((images.zip Z_s).map (fun p =>
        (List.zipWith (fun zf ed => (zf.1 / zf.2 - fluxOf th p.1.band) * (ed.1 - ed.2))
          (p.2.zip (f_nms Rg th p.1))
          ((f_nms_exp Rg th p.1).zip (f_nms_dev Rg th p.1))).sum)).sum := by
  unfold galaxy_source_like_grad
  rw [if_pos (show ((0 : Fin 11) : ℕ) = 0 from rfl)]
  rw [foldl_add_eq_sum (gradThetaTerm Rg th) (images.zip Z_s) 0, zero_add]
  rfl

/-- C5: the flux component for band b (output position 6 + b) of the Gradient
Evaluator is the sum, over the images of that band, of
(1 / flux[b]) * sum(Z) - sum(f); a band with no image gets gradient 0. -/
theorem C5_grad_flux_spec (Rg : ProfRegistry) (th : Fin 11 → ℝ)
    (Z_s : List (List ℝ)) (images : List FitsImage) (b : Fin 5) :
    galaxy_source_like_grad Rg th Z_s images ⟨6 + b.val, by omega⟩ =
      (((images.zip Z_s).filter (fun p => p.1.band = b)).map
        (fun p => 1 / fluxOf th b * p.2.sum - (f_nms Rg th p.1).sum)).sum ∧
    ((∀ p ∈ images.zip Z_s, p.1.band ≠ b) →
      galaxy_source_like_grad Rg th Z_s images ⟨6 + b.val, by omega⟩ = 0) := by
  have hmain : galaxy_source_like_grad Rg th Z_s images ⟨6 + b.val, by omega⟩ =
      (((images.zip Z_s).filter (fun p => p.1.band = b)).map
        (fun p => 1 / fluxOf th b * p.2.sum - (f_nms Rg th p.1).sum)).sum := by
    unfold galaxy_source_like_grad
    simp only [Fin.val_mk]
    rw [if_neg (by omega), dif_neg (by omega)]
    have hidx : ∀ h : 6 + b.val - 6 < 5, (⟨6 + b.val - 6, h⟩ : Fin 5) = b :=
      fun h => Fin.ext (by simp only [Fin.val_mk]; omega)
    rw [hidx]
    rw [foldl_update_eq_filter_sum (fun p => p.1.band) (gradFluxTerm Rg th)
      (images.zip Z_s) (fun _ => (0 : ℝ)) b]
    rw [zero_add]
    apply congrArg List.sum
    apply List.map_congr_left
    intro p hp
    have hpb : p.1.band = b := by
      have := List.of_mem_filter hp
      simpa using this
    simp only [gradFluxTerm, hpb]
  refine ⟨hmain, fun hnone => ?_⟩
  rw [hmain]
  have hfil : (images.zip Z_s).filter (fun p => p.1.band = b) = [] := by
    apply List.filter_eq_nil_iff.mpr
    intro p hp
    simpa using hnone p hp
  rw [hfil]
  simp

/-- C5 witness: with no images at all, band 0 has no image and its flux
gradient is 0. -/
theorem C5_grad_flux_witness :
    (∀ p ∈ ([] : List (FitsImage × List ℝ)), p.1.band ≠ 0) ∧
    galaxy_source_like_grad ⟨⟨[], []⟩, ⟨[], []⟩⟩ (fun _ => 1) [] []
      ⟨6, by omega⟩ = 0 := by
  refine ⟨by simp, ?_⟩
  exact (C5_grad_flux_spec ⟨⟨[], []⟩, ⟨[], []⟩⟩ (fun _ => 1) [] [] 0).2 (by simp)

/-- C7: the Profile-PSF Mixture Convolution fails (with the
UnknownProfileType assertion, modelled as none) for every profile key other
than exp and dev, and succeeds for the keys exp and dev. -/
theorem C7_unknown_profile_type_spec (Rg : ProfRegistry) (R : M2) (u : V2)
    (img : FitsImage) (k : String) :
    (k ≠ "exp" → k ≠ "dev" → gen_galaxy_prof_psf_image Rg k R u img = none) ∧
    (gen_galaxy_prof_psf_image Rg "exp" R u img).isSome = true ∧
    (gen_galaxy_prof_psf_image Rg "dev" R u img).isSome = true := by
  refine ⟨fun h1 h2 => ?_, rfl, rfl⟩
  unfold gen_galaxy_prof_psf_image galaxy_prof_dict
  rw [if_neg h1, if_neg h2]
  rfl

/-- C7 witness: the key "psf" is neither exp nor dev and the lookup fails. -/
theorem C7_unknown_profile_type_witness :
    ("psf" ≠ "exp" ∧ "psf" ≠ "dev") ∧
    gen_galaxy_prof_psf_image ⟨⟨[], []⟩, ⟨[], []⟩⟩ "psf" ⟨1, 0, 0, 1⟩ ⟨0, 0⟩
      ⟨0, 1, 1, [], [], [], []⟩ = none := by
  refine ⟨⟨by decide, by decide⟩, ?_⟩
  exact (C7_unknown_profile_type_spec ⟨⟨[], []⟩, ⟨[], []⟩⟩ ⟨1, 0, 0, 1⟩ ⟨0, 0⟩
    ⟨0, 1, 1, [], [], [], []⟩ "psf").1 (by decide) (by decide)

/-- C9: gen_galaxy_psf_image does not depend on its u_s argument: the source
location is always taken from th[4:6], which overwrites the supplied
argument. -/
theorem C9_gen_galaxy_psf_image_ignores_u (Rg : ProfRegistry) (th : Fin 11 → ℝ)
    (u1 u2 : V2) (img : FitsImage) :
    gen_galaxy_psf_image Rg th u1 img = gen_galaxy_psf_image Rg th u2 img := rfl
